import Mathlib

/-!
# Verification of the grafana-deepseek-demo chat-completion bridge

Shallow embedding of the bridge's orchestration core:

* `Bridge.JsonVal`           — JSON values, modelling the JavaScript objects flowing
                               through the service (with a `stringify` modelling
                               `JSON.stringify` and JS truthiness / field access).
* namespace `Legacy`         — the revision in `src/bridge/BridgeService.js`
                               (`handleChat` / `processPrompt` / `callLLM` / SSE helpers);
                               external calls (Ollama, MCP server) are oracles recorded
                               in an environment, and the SSE output is a trace of events.
* namespace `Cur`            — the newest revision: `src/unnamed/part_006` (second
                               document, `BridgeService._checkMCP`), `src/unnamed/part_001`
                               (`McpHelper`), and `src/bridge/helpers/GrafanaMcp.js`.
                               The MCP HTTP transport is a function from the JSON-RPC
                               request actually issued to an optional HTTP reply, so the
                               requests put on the wire are part of every result.

All definitions are executable; theorems about the claims follow the definitions.
-/

namespace Bridge

/-- JSON values (JS objects/arrays/primitives as they appear on this wire).
Numbers are modelled as integers: no claim depends on non-integral numerics. -/
inductive JsonVal where
  | null
  | bool (b : Bool)
  | num (n : Int)
  | str (s : String)
  | arr (xs : List JsonVal)
  | obj (fields : List (String × JsonVal))
  deriving Repr

mutual

def JsonVal.beq : JsonVal → JsonVal → Bool
  | .null, .null => true
  | .bool a, .bool b => a == b
  | .num a, .num b => a == b
  | .str a, .str b => a == b
  | .arr a, .arr b => JsonVal.beqList a b
  | .obj a, .obj b => JsonVal.beqFields a b
  | _, _ => false

def JsonVal.beqList : List JsonVal → List JsonVal → Bool
  | [], [] => true
  | x :: xs, y :: ys => JsonVal.beq x y && JsonVal.beqList xs ys
  | _, _ => false

def JsonVal.beqFields : List (String × JsonVal) → List (String × JsonVal) → Bool
  | [], [] => true
  | (k1, v1) :: xs, (k2, v2) :: ys => k1 == k2 && JsonVal.beq v1 v2 && JsonVal.beqFields xs ys
  | _, _ => false

end

mutual

theorem JsonVal.beq_eq : ∀ a b : JsonVal, JsonVal.beq a b = true → a = b
  | .null, .null, _ => rfl
  | .bool a, .bool b, h => by
      simp only [JsonVal.beq, beq_iff_eq] at h; exact h ▸ rfl
  | .num a, .num b, h => by
      simp only [JsonVal.beq, beq_iff_eq] at h; exact h ▸ rfl
  | .str a, .str b, h => by
      simp only [JsonVal.beq, beq_iff_eq] at h; exact h ▸ rfl
  | .arr a, .arr b, h => by
      have := JsonVal.beqList_eq a b h; exact this ▸ rfl
  | .obj a, .obj b, h => by
      have := JsonVal.beqFields_eq a b h; exact this ▸ rfl

theorem JsonVal.beqList_eq : ∀ a b : List JsonVal, JsonVal.beqList a b = true → a = b
  | [], [], _ => rfl
  | x :: xs, y :: ys, h => by
      simp only [JsonVal.beqList, Bool.and_eq_true] at h
      have h1 := JsonVal.beq_eq x y h.1
      have h2 := JsonVal.beqList_eq xs ys h.2
      rw [h1, h2]

theorem JsonVal.beqFields_eq :
    ∀ a b : List (String × JsonVal), JsonVal.beqFields a b = true → a = b
  | [], [], _ => rfl
  | (k1, v1) :: xs, (k2, v2) :: ys, h => by
      simp only [JsonVal.beqFields, Bool.and_eq_true, beq_iff_eq] at h
      have h1 := JsonVal.beq_eq v1 v2 h.1.2
      have h2 := JsonVal.beqFields_eq xs ys h.2
      rw [h.1.1, h1, h2]

end

mutual

theorem JsonVal.beq_refl : ∀ a : JsonVal, JsonVal.beq a a = true
  | .null => rfl
  | .bool a => by simp [JsonVal.beq]
  | .num a => by simp [JsonVal.beq]
  | .str a => by simp [JsonVal.beq]
  | .arr a => JsonVal.beqList_refl a
  | .obj a => JsonVal.beqFields_refl a

theorem JsonVal.beqList_refl : ∀ a : List JsonVal, JsonVal.beqList a a = true
  | [] => rfl
  | x :: xs => by
      simp only [JsonVal.beqList, Bool.and_eq_true]
      exact ⟨JsonVal.beq_refl x, JsonVal.beqList_refl xs⟩

theorem JsonVal.beqFields_refl :
    ∀ a : List (String × JsonVal), JsonVal.beqFields a a = true
  | [] => rfl
  | (k, v) :: xs => by
      simp [JsonVal.beqFields, JsonVal.beq_refl v, JsonVal.beqFields_refl xs]

end

instance : DecidableEq JsonVal := fun a b =>
  if h : JsonVal.beq a b = true then
    .isTrue (JsonVal.beq_eq a b h)
  else
    .isFalse (fun he => h (he ▸ JsonVal.beq_refl a))

/-- JS truthiness of a JSON value (`undefined` is modelled by `Option.none`
at use sites). -/
def jsTruthy : JsonVal → Bool
  | .null => false
  | .bool b => b
  | .num n => n != 0
  | .str s => s != ""
  | .arr _ => true
  | .obj _ => true

/-- JS truthiness of a possibly-`undefined` value. -/
def jsTruthyOpt : Option JsonVal → Bool
  | some v => jsTruthy v
  | none => false

/-- JS property access `v.k` (`undefined`, i.e. `none`, when absent or when `v`
is not an object). -/
def getField : JsonVal → String → Option JsonVal
  | .obj fs, k => fs.lookup k
  | _, _ => none

/-- String escaping for `stringify` (the escapes relevant to the strings this
service handles). -/
def escapeChar (c : Char) : String :=
  if c = '"' then "\\\""
  else if c = '\\' then "\\\\"
  else if c = '\n' then "\\n"
  else String.singleton c

def escapeStr (s : String) : String :=
  String.join (s.data.map escapeChar)

mutual

/-- Model of `JSON.stringify` on defined values. -/
def stringify : JsonVal → String
  | .null => "null"
  | .bool true => "true"
  | .bool false => "false"
  | .num n => toString n
  | .str s => "\"" ++ escapeStr s ++ "\""
  | .arr xs => "[" ++ stringifyList xs ++ "]"
  | .obj fs => "\x7b" ++ stringifyFields fs ++ "\x7d"

def stringifyList : List JsonVal → String
  | [] => ""
  | [x] => stringify x
  | x :: xs => stringify x ++ "," ++ stringifyList xs

def stringifyFields : List (String × JsonVal) → String
  | [] => ""
  | [(k, v)] => "\"" ++ escapeStr k ++ "\":" ++ stringify v
  | (k, v) :: fs => "\"" ++ escapeStr k ++ "\":" ++ stringify v ++ "," ++ stringifyFields fs

end

/-- Model of `String.prototype.includes`, via list infixes. -/
def jsIncludes (s sub : String) : Bool :=
  decide (sub.data <:+: s.data)

/-- Model of `String.prototype.endsWith`. -/
def jsEndsWith (s sub : String) : Bool :=
  decide (sub.data <:+ s.data)

/-- Model of `String.prototype.startsWith`. -/
def jsStartsWith (s sub : String) : Bool :=
  decide (sub.data <+: s.data)

/-- A string that ends with `t` contains every substring of `t`. -/
theorem jsIncludes_of_jsEndsWith {s t u : String}
    (h1 : jsEndsWith s t = true) (h2 : jsIncludes t u = true) :
    jsIncludes s u = true := by
  simp only [jsIncludes, jsEndsWith, decide_eq_true_eq] at *
  exact h2.trans h1.isInfix

/-- Two prefixes of one string where neither is a prefix of the other are
incompatible: a line starting with `"#mcp:grafana"` does not start with
`"#llm:test"`. -/
theorem not_test_of_mcp {l : String}
    (h : jsStartsWith l "#mcp:grafana" = true) :
    jsStartsWith l "#llm:test" = false := by
  simp only [jsStartsWith, decide_eq_true_eq] at h
  simp only [jsStartsWith, decide_eq_false_iff_not]
  intro hc
  have hlen : ("#llm:test".data).length ≤ ("#mcp:grafana".data).length := by decide
  have := List.prefix_of_prefix_length_le hc h hlen
  revert this
  decide

/-- Model of `array.join("\n")` (JS `Array.prototype.join` with separator `"\n"`). -/
def joinLines : List String → String
  | [] => ""
  | [x] => x
  | x :: xs => x ++ "\n" ++ joinLines xs

/-- Model of `content.split("\n")` on the character list: JS `split` with a one-char
separator (never yields an empty array; `"".split("\n")` is `[""]`). -/
def splitNl : List Char → List (List Char)
  | [] => [[]]
  | c :: cs =>
    if c = '\n' then [] :: splitNl cs
    else
      match splitNl cs with
      | l :: ls => (c :: l) :: ls
      | [] => [[c]]

/-- The lines of a message body, `content.split("\n")`. -/
def jsSplitLines (content : String) : List String :=
  (splitNl content.data).map (fun l => ⟨l⟩)

/-- The last line of a message body: `lines[lines.length - 1]` after
`content.split("\n")` (the split is never empty, so the default is unused). -/
def lastLine (content : String) : String :=
  (jsSplitLines content).getLastD ""

instance {ε α : Type} [DecidableEq ε] [DecidableEq α] : DecidableEq (Except ε α) := fun x y =>
  match x, y with
  | .ok a, .ok b =>
    if h : a = b then .isTrue (by rw [h]) else .isFalse (by intro hc; cases hc; exact h rfl)
  | .error a, .error b =>
    if h : a = b then .isTrue (by rw [h]) else .isFalse (by intro hc; cases hc; exact h rfl)
  | .ok _, .error _ => .isFalse (by intro hc; cases hc)
  | .error _, .ok _ => .isFalse (by intro hc; cases hc)

end Bridge

namespace Legacy

open Bridge

/-! ## `src/bridge/BridgeService.js`

The revision under `src/bridge/`: prompt selection in `handleChat`, the
`processPrompt` state machine, `callLLM`, and the SSE renderer
(`setupStream` / `writeStreamChunk` / `endStream` / `streamLLMResponse`). -/

/-- One inbound message of the request body (C3's `handleChat`). -/
structure InMsg where
  role : String
  content : String
  deriving DecidableEq, Repr

/-- The inbound body fields `handleChat` reads (`messages`, `prompt`, `input`,
`stream`); absent fields are `none`. -/
structure Body where
  messages : Option (List InMsg)
  prompt : Option String
  input : Option String
  stream : Bool
  deriving DecidableEq, Repr

/-- Model of `body.messages?.map((m) => role + ": " + content).join("\n")`. -/
def promptOfMessages (ms : List InMsg) : String :=
  joinLines (ms.map (fun m => m.role ++ ": " ++ m.content))

/-- Model of `JSON.stringify(body)` for the body record (fields in declaration
order, absent fields skipped, as `JSON.stringify` skips `undefined`). -/
def stringifyBody (b : Body) : String :=
  stringify (.obj
    ((match b.messages with
      | some ms => [("messages", JsonVal.arr (ms.map (fun m =>
          JsonVal.obj [("role", .str m.role), ("content", .str m.content)])))]
      | none => []) ++
     (match b.prompt with
      | some p => [("prompt", JsonVal.str p)]
      | none => []) ++
     (match b.input with
      | some i => [("input", JsonVal.str i)]
      | none => []) ++
     [("stream", JsonVal.bool b.stream)]))

/-- JS `a || b` on a possibly-`undefined` string (empty string is falsy). -/
def jsOrStr (a : Option String) (b : String) : String :=
  match a with
  | some s => if s = "" then b else s
  | none => b

/-- The prompt-source fallback chain of `handleChat`:
`body.messages?.map(...).flatten("\n") || body.prompt || body.input || JSON.stringify(body)`. -/
def selectPrompt (b : Body) : String :=
  jsOrStr (b.messages.map promptOfMessages)
    (jsOrStr b.prompt (jsOrStr b.input (stringifyBody b)))

/-- Model of `callLLM`: `response?.message?.content || JSON.stringify(response)`, given
the backend response object on a successful transport. -/
def callLLM (response : JsonVal) : JsonVal :=
  match (getField response "message").bind (fun m => getField m "content") with
  | some v => if jsTruthy v then v else .str (stringify response)
  | none => .str (stringify response)

/-- The LLM "analysis" reply: the raw text returned by `callLLM` plus the
result of `JSON.parse(raw)` (`none` when the raw text is not valid JSON and
`JSON.parse` throws). -/
structure AnalysisReply where
  raw : String
  parsed : Option JsonVal
  deriving DecidableEq, Repr

/-- Oracles for the external calls `processPrompt` may make, in the order the
code can reach them.  `Except.error` is a thrown exception at that call site
(`callMCP` in this revision itself throws on a non-2xx reply). -/
structure Env where
  mode : String
  analysis : Except String AnalysisReply
  mcp : Except String JsonVal
  summarize : Except String String
  finalAnswer : Except String String
  streamParts : List String
  streamErr : Bool
  deriving Repr

/-- External calls recorded during one `processPrompt` run. -/
inductive CallEv where
  | llm (kind : String)
  | mcp (method : JsonVal) (params : JsonVal)
  deriving DecidableEq, Repr

/-- SSE frames written on the response. -/
inductive SSE where
  | role
  | chunk (content : String)
  | finish
  | done
  | close
  deriving DecidableEq, Repr

/-- The `// check if it's an MCP request` section of `processPrompt`: returns
the calls made and either a thrown error or `(askLLM, finalResponse)`. -/
def mcpSection (env : Env) (prompt : String) : List CallEv × Except String (Bool × String) :=
  if jsIncludes prompt "#mcp:grafana" = true then
    let step1 : List CallEv × Except String JsonVal :=
      if jsEndsWith prompt "#mcp:grafana:tools" = true then
        ([], .ok (JsonVal.obj [("action", .str "mcp"), ("method", .str "tools/list")]))
      else
        match env.analysis with
        | .error e => ([CallEv.llm "analysis"], .error e)
        | .ok r => ([CallEv.llm "analysis"],
            .ok (match r.parsed with
                 | some j => j
                 | none => JsonVal.obj [("action", .str "respond"), ("text", .str prompt)]))
    match step1 with
    | (c1, .error e) => (c1, .error e)
    | (c1, .ok parsed) =>
      if getField parsed "action" = some (JsonVal.str "mcp")
          ∧ jsTruthyOpt (getField parsed "method") = true then
        let mth := (getField parsed "method").getD .null
        let prms := if jsTruthyOpt (getField parsed "params") = true then
                      (getField parsed "params").getD .null
                    else JsonVal.obj []
        match env.mcp with
        | .error e => (c1 ++ [CallEv.mcp mth prms], .error e)
        | .ok resp =>
          -- `JSON.stringify(mcpResponse?.result)`; a missing `result` field is
          -- `JSON.stringify(undefined)` (the undefined value), written here as
          -- the placeholder text since it only ever flows into response content.
          let mcpResult := ((getField resp "result").map stringify).getD "undefined"
          if jsEndsWith prompt "#mcp:grafana:tools" = true then
            (c1 ++ [CallEv.mcp mth prms], .ok (false, mcpResult))
          else
            match env.summarize with
            | .error e => (c1 ++ [CallEv.mcp mth prms, CallEv.llm "summarize"], .error e)
            | .ok s => (c1 ++ [CallEv.mcp mth prms, CallEv.llm "summarize"], .ok (false, s))
      else (c1, .ok (true, ""))
  else ([], .ok (true, ""))

/-- Model of `streamLLMResponse`: one content chunk per backend chunk with non-empty
content; a thrown iteration error is caught and written as the literal
`"Error in streaming"` chunk. -/
def streamLLMEvents (env : Env) : List SSE :=
  ((env.streamParts.filter (fun s => s ≠ "")).map SSE.chunk)
    ++ (if env.streamErr then [SSE.chunk "Error in streaming"] else [])

/-- The outcome of one `processPrompt` run: calls made, SSE frames written by
it (the `setupStream` role frame is written by `handleChat` before), the value
returned to `handleChat` for the non-streaming reply, and a thrown error. -/
structure RunResult where
  calls : List CallEv
  events : List SSE
  response : Option String
  threw : Option String
  deriving DecidableEq, Repr

/-- Model of `processPrompt(prompt, body, stream, respId, res)`. -/
def processPrompt (env : Env) (prompt : String) (stream : Bool) : RunResult :=
  if env.mode = "TEST" then
    { calls := [], events := [], response := some "Lorem ipsum dolor sit amet", threw := none }
  else
    match mcpSection env prompt with
    | (calls, .error e) => { calls := calls, events := [], response := none, threw := some e }
    | (calls, .ok (askLLM, finalResponse)) =>
      if stream then
        if askLLM then
          { calls := calls ++ [CallEv.llm "stream"],
            events := streamLLMEvents env ++ [SSE.finish, SSE.done, SSE.close],
            response := none, threw := none }
        else
          { calls := calls,
            events := [SSE.chunk finalResponse, SSE.finish, SSE.done, SSE.close],
            response := none, threw := none }
      else
        if askLLM then
          match env.finalAnswer with
          | .error e => { calls := calls ++ [CallEv.llm "final"], events := [],
                          response := none, threw := some e }
          | .ok s => { calls := calls ++ [CallEv.llm "final"], events := [],
                       response := some s, threw := none }
        else
          { calls := calls, events := [], response := some finalResponse, threw := none }

/-- The SSE frames a streaming request produces end to end: `setupStream`
writes the role frame, then `processPrompt` runs; if it threw, `handleChat`'s
catch sees `headersSent` and only closes the connection. -/
def handleChatStream (env : Env) (prompt : String) : List SSE :=
  let r := processPrompt env prompt true
  SSE.role :: (r.events ++ (if r.threw.isSome then [SSE.close] else []))

end Legacy

namespace Cur

open Bridge

/-! ## The newest revision

`src/unnamed/part_001` (`McpHelper`), `src/bridge/helpers/GrafanaMcp.js`
(`GrafanaMcp extends McpHelper`), and the second document of
`src/unnamed/part_006` (`BridgeService._checkMCP` and `handleChat`). -/

/-- Model of `toolCall.function` — the tool name and arguments of one Ollama tool call. -/
structure ToolFunction where
  name : String
  arguments : JsonVal
  deriving DecidableEq, Repr

/-- An Ollama-style tool call. -/
structure ToolCall where
  function : ToolFunction
  deriving DecidableEq, Repr

def toolFunctionJson (f : ToolFunction) : JsonVal :=
  .obj [("name", .str f.name), ("arguments", f.arguments)]

/-- The JSON-RPC envelope `methodCall` posts to the MCP server. -/
structure RpcRequest where
  jsonrpc : String
  id : String
  method : String
  params : JsonVal
  deriving DecidableEq, Repr

/-- An HTTP reply from the MCP server; `json = none` means the reply body is
not valid JSON, so `response.json()` throws. -/
structure HttpReply where
  ok : Bool
  status : Int
  statusText : String
  json : Option JsonVal
  deriving DecidableEq, Repr

/-- The MCP HTTP transport: `none` models `fetch` itself rejecting
(server unreachable). -/
def Transport := RpcRequest → Option HttpReply

namespace McpHelper

/-- Model of `McpHelper.methodCall(method, params)`: builds the JSON-RPC envelope and
interprets the reply.  Returns the requests put on the wire together with the
returned value or the thrown error. -/
def methodCall (t : Transport) (method : String) (params : JsonVal) :
    List RpcRequest × Except String JsonVal :=
  let req : RpcRequest := { jsonrpc := "2.0", id := "1", method := method, params := params }
  match t req with
  | none => ([req], .error "fetch failed")
  | some reply =>
    match reply.json with
    | none => ([req], .error "reply body is not valid JSON")
    | some result =>
      if !reply.ok || reply.status == 401 then
        ([req], .ok (.obj [("error",
          .str ("MCP Server connection error: " ++ toString reply.status
                ++ " - " ++ reply.statusText))]))
      else if jsTruthyOpt (getField result "error") = true then
        ([req], .ok (.obj [("error",
          ((getField result "error").getD .null |> (getField · "message")).getD .null)]))
      else
        ([req], .ok result)

/-- Model of `McpHelper.toolCall(tool)`. -/
def toolCall (t : Transport) (tool : JsonVal) : List RpcRequest × Except String JsonVal :=
  methodCall t "tools/call" tool

/-- Model of `McpHelper.getToolsList()`. -/
def getToolsList (t : Transport) : List RpcRequest × Except String JsonVal :=
  methodCall t "tools/list" (.obj [])

/-- Model of `McpHelper.executeTool(toolCall)`: the base-class fallback — `getToolsList`
for its one registered tool, otherwise `return toolCall.function` (no server
call). -/
def executeTool (t : Transport) (tc : ToolCall) : List RpcRequest × Except String JsonVal :=
  if tc.function.name = "getToolsList" then getToolsList t
  else ([], .ok (toolFunctionJson tc.function))

end McpHelper

namespace GrafanaMcp

/-- The tool names `GrafanaMcp`'s constructor registers in `this.tools`
(the base class registers `getToolsList`, then the subclass pushes seven). -/
def toolNames : List String :=
  ["getToolsList", "getGrafanaVersion", "getDashboards", "getMetricsNames",
   "getMetrics", "getDatasources", "getDashboard", "getMetric"]

def getGrafanaVersion : List RpcRequest × Except String JsonVal :=
  ([], .ok (.obj [("version", .str "latest")]))

def getDashboards (t : Transport) : List RpcRequest × Except String JsonVal :=
  McpHelper.toolCall t (.obj [("name", .str "search_dashboards"),
                              ("arguments", .obj [("search", .str "*")])])

def getMetricsNames (t : Transport) : List RpcRequest × Except String JsonVal :=
  McpHelper.toolCall t (.obj [("name", .str "list_prometheus_metric_names"),
                              ("arguments", .obj [("datasourceUid", .str "Prometheus")])])

def getMetric (t : Transport) (uid : JsonVal) : List RpcRequest × Except String JsonVal :=
  McpHelper.toolCall t (.obj [("name", .str "list_prometheus_metric_metadata"),
                              ("arguments", .obj [("datasourceUid", .str "Prometheus"),
                                                  ("metric", uid)])])

def getMetrics (t : Transport) : List RpcRequest × Except String JsonVal :=
  getMetric t (.str "*")

def getDatasources (t : Transport) : List RpcRequest × Except String JsonVal :=
  McpHelper.toolCall t (.obj [("name", .str "list_datasources"), ("arguments", .obj [])])

def getDashboard (t : Transport) (uid : JsonVal) : List RpcRequest × Except String JsonVal :=
  McpHelper.toolCall t (.obj [("name", .str "get_dashboard_summary"),
                              ("arguments", .obj [("uid", uid)])])

/-- Model of `GrafanaMcp.executeTool(toolCall)` (the overload): dispatch on the
registered names, falling back to `super.executeTool`. -/
def executeTool (t : Transport) (tc : ToolCall) : List RpcRequest × Except String JsonVal :=
  if tc.function.name = "getDashboards" then getDashboards t
  else if tc.function.name = "getMetricsNames" then getMetricsNames t
  else if tc.function.name = "getMetrics" then getMetrics t
  else if tc.function.name = "getDatasources" then getDatasources t
  else if tc.function.name = "getDashboard" then
    getDashboard t ((getField tc.function.arguments "uid").getD .null)
  else if tc.function.name = "getMetric" then
    getMetric t ((getField tc.function.arguments "uid").getD .null)
  else if tc.function.name = "getGrafanaVersion" then getGrafanaVersion
  else McpHelper.executeTool t tc

/-- One element of `executeTools`' result list
(`{ role: "tool", name, content, result }`; `role` is always `"tool"`). -/
structure ToolResult where
  name : String
  content : String
  result : JsonVal
  deriving DecidableEq, Repr

def toolResultJson (r : ToolResult) : JsonVal :=
  .obj [("role", .str "tool"), ("name", .str r.name),
        ("content", .str r.content), ("result", r.result)]

/-- Model of `McpHelper.executeTools(tool_calls)` as inherited by `GrafanaMcp`
(`this.executeTool` dispatches to the subclass overload): a sequential loop,
one awaited `executeTool` per call, results pushed in order; a thrown error at
any call aborts the batch. -/
def executeTools (t : Transport) :
    List ToolCall → List RpcRequest × Except String (List ToolResult)
  | [] => ([], .ok [])
  | tc :: rest =>
    match executeTool t tc with
    | (reqs, .error e) => (reqs, .error e)
    | (reqs, .ok result) =>
      let tr : ToolResult :=
        { name := tc.function.name,
          content := if jsTruthyOpt (getField result "error") = true then "error" else "result",
          result := result }
      match executeTools t rest with
      | (reqs2, .error e) => (reqs ++ reqs2, .error e)
      | (reqs2, .ok rs) => (reqs ++ reqs2, .ok (tr :: rs))

end GrafanaMcp

/-- A conversation message of the helper's prompt (`role`, `content`, and the
fields the MCP path adds: `name` on tool messages, `tool_calls` on the pushed
assistant message). -/
structure Msg where
  role : String
  content : String
  name : String := ""
  tool_calls : List ToolCall := []
  deriving DecidableEq, Repr

/-- The LLM "opinion" reply recorded in `helper.answer` by
`this.ollama.callLLM(helper)`. -/
structure Answer where
  content : String
  tool_calls : List ToolCall
  deriving DecidableEq, Repr

/-- Oracles of `_checkMCP`: the LLM opinion call (`Except.error` = thrown) and
the MCP transport. -/
structure CheckEnv where
  opinion : Except String Answer
  transport : Transport

/-- The tool message `_checkMCP` pushes for one `ToolResult`:
`content` is `JSON.stringify(result.error ? {error: ...} : result.result ? {result: result.result} : {result})`.
The outer result object never carries an `error` field (see `executeTools`),
so the first alternative is unreachable; `{ result }` is JS shorthand for
`{result: result}` — the whole outer object. -/
def toolResultMsg (r : GrafanaMcp.ToolResult) : Msg :=
  { role := "tool", name := r.name,
    content := stringify (if jsTruthy r.result = true then
                            .obj [("result", r.result)]
                          else
                            .obj [("result", GrafanaMcp.toolResultJson r)]) }

/-- The synthetic system instruction appended after the tool messages. -/
def followupInstruction : String :=
  "Respond to the user's latest interaction based on the result from the previous tool."

/-- What `_checkMCP` leaves behind: the (possibly extended) conversation, the
final `helper.answer` fields, whether tools were still attached to the prompt
at the end, and a trace of the external calls it made. -/
structure CheckOut where
  messages : List Msg
  toolsAttached : Bool
  answerContent : String
  answerToolCalls : List ToolCall
  opinionCalled : Bool
  rpcRequests : List RpcRequest
  deriving DecidableEq, Repr

/-- Model of `BridgeService._checkMCP(helper)` (part_006, second document), given the
conversation `msgs` and the `helper.answer.content` preset before the call
(`""`, or `"Invalid prompt"` from the OWASP check). -/
def checkMCP (env : CheckEnv) (msgs : List Msg) (preContent : String) :
    Except String CheckOut :=
  match msgs.getLast? with
  | none =>
    .ok { messages := msgs, toolsAttached := false, answerContent := preContent,
          answerToolCalls := [], opinionCalled := false, rpcRequests := [] }
  | some m =>
    let ll := lastLine m.content
    if jsStartsWith ll "#llm:test" = true then
      .ok { messages := msgs, toolsAttached := false,
            answerContent := "Lorem ipsum dolor sit amet",
            answerToolCalls := [], opinionCalled := false, rpcRequests := [] }
    else if jsStartsWith ll "#mcp:grafana" = true then
      match env.opinion with
      | .error e => .error e
      | .ok ans =>
        if ans.tool_calls ≠ [] then
          let msgs1 := msgs ++ [{ role := "assistant", content := "",
                                  tool_calls := ans.tool_calls : Msg }]
          match GrafanaMcp.executeTools env.transport ans.tool_calls with
          | (_, .error e) => .error e
          | (reqs, .ok results) =>
            .ok { messages := (msgs1 ++ results.map toolResultMsg)
                                ++ [{ role := "system", content := followupInstruction : Msg }],
                  toolsAttached := false, answerContent := "",
                  answerToolCalls := ans.tool_calls,
                  opinionCalled := true, rpcRequests := reqs }
        else
          .ok { messages := msgs, toolsAttached := true, answerContent := ans.content,
                answerToolCalls := ans.tool_calls, opinionCalled := true, rpcRequests := [] }
    else
      .ok { messages := msgs, toolsAttached := false, answerContent := preContent,
            answerToolCalls := [], opinionCalled := false, rpcRequests := [] }

/-- The three-way mode split of `_checkMCP`'s guards on one line. -/
inductive Mode where
  | test
  | mcpAnalysis
  | direct
  deriving DecidableEq, Repr

/-- The guard chain of `_checkMCP` applied to one line. -/
def modeOfLine (l : String) : Mode :=
  if jsStartsWith l "#llm:test" = true then .test
  else if jsStartsWith l "#mcp:grafana" = true then .mcpAnalysis
  else .direct

/-- Mode selection as `_checkMCP` performs it: the last line of the last
message of the conversation (an empty conversation skips the whole section,
i.e. takes the direct path). -/
def modeSelect (msgs : List Msg) : Mode :=
  match msgs.getLast? with
  | none => .direct
  | some m => modeOfLine (lastLine m.content)

/-- The last `user`-role message of a conversation — the entity the spec's
claims C2/C4 quantify over (claim-side definition, for comparison with the
source's use of the last message regardless of role). -/
def lastUserMsg (msgs : List Msg) : Option Msg :=
  (msgs.filter (fun m => m.role = "user")).getLast?

/-- Modelled from the spec: `OllamaHelper.answerChat` is not under `src/`
(only its callers are).  Per the spec's `FINALIZE` state, a preset non-empty
`answer.content` is handed to the renderer as the final text with no further
LLM call; otherwise exactly one follow-up LLM call is issued with the
accumulated conversation and its reply becomes the final text.  The returned
second component records which conversation (if any) was sent to that
follow-up call. -/
def answerChat (followup : List Msg → Except String String)
    (msgs : List Msg) (preset : String) :
    Except String (String × Option (List Msg)) :=
  if preset ≠ "" then .ok (preset, none)
  else
    match followup msgs with
    | .error e => .error e
    | .ok s => .ok (s, some msgs)

/-- Environment of the full `handleChat` pipeline: the `_checkMCP` oracles,
the OWASP-check verdict, and the follow-up LLM call.  `OllamaHelper.checkOWASP`
itself is not under `src/` and the spec does not cover it, so its verdict is an
opaque boolean here; its only effect visible in `handleChat` (under `src/`) is
presetting the content `"Invalid prompt"` on failure, which is modelled. -/
structure PipelineEnv where
  check : CheckEnv
  owaspOk : Bool
  followup : List Msg → Except String String

/-- Outcome of the `handleChat` pipeline. -/
structure PipeOut where
  content : String
  sentToFollowup : Option (List Msg)
  check : CheckOut
  deriving DecidableEq, Repr

/-- Model of `BridgeService.handleChat` (part_006, second document), from the parsed
conversation to the final completion content: OWASP preset, `_checkMCP`, then
`answerChat`. -/
def handleChat (env : PipelineEnv) (msgs : List Msg) : Except String PipeOut :=
  let pre := if env.owaspOk then "" else "Invalid prompt"
  match checkMCP env.check msgs pre with
  | .error e => .error e
  | .ok out =>
    match answerChat env.followup out.messages out.answerContent with
    | .error e => .error e
    | .ok (content, sent) =>
      .ok { content := content, sentToFollowup := sent, check := out }

end Cur

open Bridge

/-! ## Theorems about the claims -/

/-- A joined line list starting with a non-empty line is non-empty. -/
theorem joinLines_cons_ne_empty (x : String) (xs : List String) (hx : 0 < x.length) :
    Bridge.joinLines (x :: xs) ≠ "" := by
  cases xs with
  | nil =>
    simp only [Bridge.joinLines]
    intro h
    rw [h] at hx
    simp at hx
  | cons y ys =>
    simp only [Bridge.joinLines]
    intro h
    have hlen := congrArg String.length h
    rw [String.length_append, String.length_append] at hlen
    have h1 : ("\n" : String).length = 1 := rfl
    have h0 : ("" : String).length = 0 := rfl
    omega

/-- A non-empty messages array formats to a non-empty prompt string (each
element contributes the `": "` separator between role and content). -/
theorem promptOfMessages_ne_empty (m : Legacy.InMsg) (rest : List Legacy.InMsg) :
    Legacy.promptOfMessages (m :: rest) ≠ "" := by
  simp only [Legacy.promptOfMessages, List.map_cons]
  apply joinLines_cons_ne_empty
  simp only [String.length_append]
  have : (": " : String).length = 2 := rfl
  omega

/-- C3: for every inbound body, exactly one prompt source is selected by the
fixed priority `messages` > `prompt` > `input` > raw-JSON-stringified body;
the first non-empty source wins and the later sources are ignored even when
present. -/
theorem claim_C3_prompt_priority (b : Legacy.Body) :
    (∀ ms, b.messages = some ms → ms ≠ [] →
        Legacy.selectPrompt b = Legacy.promptOfMessages ms)
    ∧ ((b.messages = none ∨ b.messages = some []) →
        ∀ p, b.prompt = some p → p ≠ "" → Legacy.selectPrompt b = p)
    ∧ ((b.messages = none ∨ b.messages = some []) →
        (b.prompt = none ∨ b.prompt = some "") →
        ∀ i, b.input = some i → i ≠ "" → Legacy.selectPrompt b = i)
    ∧ ((b.messages = none ∨ b.messages = some []) →
        (b.prompt = none ∨ b.prompt = some "") →
        (b.input = none ∨ b.input = some "") →
        Legacy.selectPrompt b = Legacy.stringifyBody b) := by
  refine ⟨?_, ?_, ?_, ?_⟩
  · intro ms hms hne
    match ms, hne with
    | m :: rest, _ =>
      simp [Legacy.selectPrompt, hms, Legacy.jsOrStr,
        promptOfMessages_ne_empty m rest]
  · rintro (hms | hms) p hp hpne <;>
      simp [Legacy.selectPrompt, hms, hp, Legacy.jsOrStr, Legacy.promptOfMessages,
        Bridge.joinLines, hpne]
  · rintro (hms | hms) (hp | hp) i hi hine <;>
      simp [Legacy.selectPrompt, hms, hp, hi, Legacy.jsOrStr, Legacy.promptOfMessages,
        Bridge.joinLines, hine]
  · rintro (hms | hms) (hp | hp) (hi | hi) <;>
      simp [Legacy.selectPrompt, hms, hp, hi, Legacy.jsOrStr, Legacy.promptOfMessages,
        Bridge.joinLines]

/-- C3 witness: the priority chain evaluated at concrete bodies. -/
theorem claim_C3_prompt_priority_witness :
    Legacy.selectPrompt { messages := some [{ role := "user", content := "Hello" }],
                          prompt := some "ignored", input := some "ignored too", stream := false }
      = "user: Hello"
    ∧ Legacy.selectPrompt { messages := some [], prompt := some "use me",
                            input := some "ignored", stream := false }
      = "use me"
    ∧ Legacy.selectPrompt { messages := none, prompt := some "", input := some "the input",
                            stream := false }
      = "the input"
    ∧ Legacy.selectPrompt { messages := none, prompt := none, input := some "", stream := true }
      = Legacy.stringifyBody { messages := none, prompt := none, input := some "",
                               stream := true } := by
  refine ⟨?_, ?_, ?_, ?_⟩
  · have h := (claim_C3_prompt_priority
        { messages := some [{ role := "user", content := "Hello" }],
          prompt := some "ignored", input := some "ignored too", stream := false }).1
        [{ role := "user", content := "Hello" }] rfl (by decide)
    exact h.trans (by decide)
  · exact (claim_C3_prompt_priority
        { messages := some [], prompt := some "use me",
          input := some "ignored", stream := false }).2.1 (.inr rfl) "use me" rfl (by decide)
  · exact (claim_C3_prompt_priority
        { messages := none, prompt := some "", input := some "the input",
          stream := false }).2.2.1 (.inl rfl) (.inr rfl) "the input" rfl (by decide)
  · exact (claim_C3_prompt_priority
        { messages := none, prompt := none, input := some "",
          stream := true }).2.2.2 (.inl rfl) (.inl rfl) (.inr rfl)

/-- C10: on a successful transport, `callLLM` returns `message.content` when
it is a non-empty string, returns the JSON serialization of the whole backend
response when `message.content` is absent or the empty string, and never
returns a null/undefined value. -/
theorem claim_C10_callLLM_total (response : JsonVal) :
    Legacy.callLLM response ≠ JsonVal.null
    ∧ (∀ m s, getField response "message" = some m →
        getField m "content" = some (.str s) → s ≠ "" →
        Legacy.callLLM response = .str s)
    ∧ ((getField response "message").bind (fun m => getField m "content") = none →
        Legacy.callLLM response = .str (stringify response))
    ∧ (∀ m, getField response "message" = some m →
        getField m "content" = some (.str "") →
        Legacy.callLLM response = .str (stringify response)) := by
  refine ⟨?_, ?_, ?_, ?_⟩
  · unfold Legacy.callLLM
    cases hc : (getField response "message").bind (fun m => getField m "content") with
    | none => simp
    | some v =>
      by_cases hv : jsTruthy v = true
      · simp only [hv, if_true]
        intro hnull
        rw [hnull] at hv
        simp [jsTruthy] at hv
      · simp [hv]
  · intro m s hm hc hs
    unfold Legacy.callLLM
    rw [hm]
    simp only [Option.some_bind, hc]
    simp [jsTruthy, hs]
  · intro hnone
    unfold Legacy.callLLM
    rw [hnone]
  · intro m hm hc
    unfold Legacy.callLLM
    rw [hm]
    simp only [Option.some_bind, hc]
    simp [jsTruthy]

/-- The transports and environments used in concrete counterexamples and
witnesses. -/
def replyNotJson : Cur.HttpReply :=
  { ok := false, status := 500, statusText := "Internal Server Error", json := none }

def replyOkEmpty : Cur.HttpReply :=
  { ok := true, status := 200, statusText := "OK",
    json := some (.obj [("jsonrpc", .str "2.0"), ("id", .str "1"),
                        ("result", .arr [])]) }

def transportDown : Cur.Transport := fun _ => some replyNotJson

def transportUp : Cur.Transport := fun _ => some replyOkEmpty

/-- C2 counterexample input: the last *user* message's final line begins with
the tool sentinel, but the conversation's last message is an assistant
message. -/
def c2Msgs : List Cur.Msg :=
  [{ role := "user", content := "#mcp:grafana show the dashboards" },
   { role := "assistant", content := "ok" }]

def c2Env : Cur.CheckEnv :=
  { opinion := .ok { content := "sure", tool_calls := [] }, transport := transportUp }

/-- C2 counterexample: with the conversation `c2Msgs`, whose last user
message's final line begins with `"#mcp:grafana"`, the claim requires the
tool-assisted (MCP_ANALYSIS) path, but `_checkMCP` inspects the last message
regardless of role (here an assistant message), selects the direct path, and
makes no LLM opinion call and no MCP request. -/
theorem claim_C2_cex :
    (Cur.lastUserMsg c2Msgs).map
        (fun m => jsStartsWith (lastLine m.content) "#mcp:grafana") = some true
    ∧ Cur.modeSelect c2Msgs = Cur.Mode.direct
    ∧ ∃ out, Cur.checkMCP c2Env c2Msgs "" = .ok out
        ∧ out.opinionCalled = false ∧ out.rpcRequests = [] := by
  refine ⟨by decide, by decide, ?_⟩
  exact ⟨{ messages := c2Msgs, toolsAttached := false, answerContent := "",
           answerToolCalls := [], opinionCalled := false, rpcRequests := [] },
         by decide, rfl, rfl⟩

/-- Unfolding `_checkMCP` on a conversation whose last message is known. -/
theorem checkMCP_last (env : Cur.CheckEnv) (msgs : List Cur.Msg) (m : Cur.Msg) (pre : String)
    (h : msgs.getLast? = some m) :
    Cur.checkMCP env msgs pre =
      (if jsStartsWith (lastLine m.content) "#llm:test" = true then
        .ok { messages := msgs, toolsAttached := false,
              answerContent := "Lorem ipsum dolor sit amet",
              answerToolCalls := [], opinionCalled := false, rpcRequests := [] }
      else if jsStartsWith (lastLine m.content) "#mcp:grafana" = true then
        match env.opinion with
        | .error e => .error e
        | .ok ans =>
          if ans.tool_calls ≠ [] then
            match Cur.GrafanaMcp.executeTools env.transport ans.tool_calls with
            | (_, .error e) => .error e
            | (reqs, .ok results) =>
              .ok { messages := msgs ++ [{ role := "assistant", content := "",
                                           tool_calls := ans.tool_calls : Cur.Msg }]
                        ++ results.map Cur.toolResultMsg
                        ++ [{ role := "system", content := Cur.followupInstruction : Cur.Msg }],
                    toolsAttached := false, answerContent := "",
                    answerToolCalls := ans.tool_calls,
                    opinionCalled := true, rpcRequests := reqs }
          else
            .ok { messages := msgs, toolsAttached := true, answerContent := ans.content,
                  answerToolCalls := ans.tool_calls, opinionCalled := true, rpcRequests := [] }
      else
        .ok { messages := msgs, toolsAttached := false, answerContent := pre,
              answerToolCalls := [], opinionCalled := false, rpcRequests := [] }) := by
  unfold Cur.checkMCP
  rw [h]

/-- C2 (amended): mode selection inspects only the last line of the *last
message of the conversation*, regardless of role; that line entering the
tool-assisted path is equivalent to it beginning with the tool sentinel and
not with the test sentinel (which is checked first); earlier lines and
earlier messages never trigger tool mode; and on any successful `_checkMCP`
run the LLM opinion call is made exactly when that mode is selected. -/
theorem claim_C2_mode_select (env : Cur.CheckEnv) (ms : List Cur.Msg) (m : Cur.Msg)
    (pre : String) :
    Cur.modeSelect (ms ++ [m]) = Cur.modeOfLine (lastLine m.content)
    ∧ (Cur.modeOfLine (lastLine m.content) = Cur.Mode.mcpAnalysis ↔
        (jsStartsWith (lastLine m.content) "#mcp:grafana" = true
         ∧ jsStartsWith (lastLine m.content) "#llm:test" = false))
    ∧ (∀ out, Cur.checkMCP env (ms ++ [m]) pre = .ok out →
        (out.opinionCalled = true ↔ Cur.modeSelect (ms ++ [m]) = Cur.Mode.mcpAnalysis)) := by
  have hlast : (ms ++ [m]).getLast? = some m := List.getLast?_concat ms
  refine ⟨?_, ?_, ?_⟩
  · simp [Cur.modeSelect, hlast]
  · unfold Cur.modeOfLine
    by_cases h1 : jsStartsWith (lastLine m.content) "#llm:test" = true
    · rw [if_pos h1]
      simp [h1]
    · rw [if_neg h1]
      rw [Bool.not_eq_true] at h1
      by_cases h2 : jsStartsWith (lastLine m.content) "#mcp:grafana" = true
      · rw [if_pos h2]
        simp [h1, h2]
      · rw [if_neg h2]
        rw [Bool.not_eq_true] at h2
        simp [h1, h2]
  · intro out hout
    rw [checkMCP_last env (ms ++ [m]) m pre hlast] at hout
    simp only [Cur.modeSelect, hlast]
    unfold Cur.modeOfLine
    by_cases h1 : jsStartsWith (lastLine m.content) "#llm:test" = true
    · rw [if_pos h1] at hout
      rw [if_pos h1]
      cases hout
      simp
    · rw [if_neg h1] at hout
      rw [if_neg h1]
      by_cases h2 : jsStartsWith (lastLine m.content) "#mcp:grafana" = true
      · rw [if_pos h2] at hout
        rw [if_pos h2]
        cases hop : env.opinion with
        | error e => rw [hop] at hout; cases hout
        | ok ans =>
          rw [hop] at hout
          dsimp only at hout
          by_cases hnz : ans.tool_calls ≠ []
          · rw [if_pos hnz] at hout
            rcases hex : Cur.GrafanaMcp.executeTools env.transport ans.tool_calls with ⟨reqs, r⟩
            rw [hex] at hout
            cases r with
            | error e => cases hout
            | ok results =>
              dsimp only at hout
              cases hout
              simp
          · rw [if_neg hnz] at hout
            cases hout
            simp
      · rw [if_neg h2] at hout
        rw [if_neg h2]
        cases hout
        simp

/-- C2 witness: a single-message conversation with the sentinel on its final
line selects the tool-assisted mode, and a successful `_checkMCP` run on it
makes the opinion call. -/
theorem claim_C2_mode_select_witness :
    Cur.modeSelect [{ role := "user", content := "hello\n#mcp:grafana show version" }]
      = Cur.Mode.mcpAnalysis
    ∧ (∃ out, Cur.checkMCP c2Env
          [{ role := "user", content := "hello\n#mcp:grafana show version" }] "" = .ok out
        ∧ out.opinionCalled = true) := by
  have h := claim_C2_mode_select c2Env []
      { role := "user", content := "hello\n#mcp:grafana show version" } ""
  refine ⟨h.1.trans (by decide), ?_⟩
  refine ⟨{ messages := [{ role := "user", content := "hello\n#mcp:grafana show version" }],
            toolsAttached := true, answerContent := "sure", answerToolCalls := [],
            opinionCalled := true, rpcRequests := [] }, by decide, ?_⟩
  exact (h.2.2 _ (by decide)).mpr (h.1.trans (by decide))

/-- Unfolding the `handleChat` pipeline on a successful `_checkMCP` run. -/
theorem handleChat_ok (env : Cur.PipelineEnv) (msgs : List Cur.Msg) (out : Cur.CheckOut)
    (h : Cur.checkMCP env.check msgs (if env.owaspOk then "" else "Invalid prompt") = .ok out) :
    Cur.handleChat env msgs =
      (match Cur.answerChat env.followup out.messages out.answerContent with
       | .error e => .error e
       | .ok (content, sent) =>
         .ok { content := content, sentToFollowup := sent, check := out }) := by
  unfold Cur.handleChat
  dsimp only
  rw [h]

/-- C4 (amended): for every request whose *last message's* final line begins
with the test sentinel `#llm:test`, the completion content is exactly
`"Lorem ipsum dolor sit amet"`, whatever the other message content, the OWASP
verdict and the LLM/tool oracles; no LLM call and no tool call is made. -/
theorem claim_C4_test_sentinel (env : Cur.PipelineEnv) (ms : List Cur.Msg) (m : Cur.Msg)
    (h : jsStartsWith (lastLine m.content) "#llm:test" = true) :
    ∃ out, Cur.handleChat env (ms ++ [m]) = .ok out
      ∧ out.content = "Lorem ipsum dolor sit amet"
      ∧ out.sentToFollowup = none
      ∧ out.check.opinionCalled = false
      ∧ out.check.rpcRequests = [] := by
  have hcheck := checkMCP_last env.check (ms ++ [m]) m
      (if env.owaspOk then "" else "Invalid prompt") (List.getLast?_concat ms)
  rw [if_pos h] at hcheck
  rw [handleChat_ok env (ms ++ [m]) _ hcheck]
  exact ⟨_, rfl, rfl, rfl, rfl, rfl⟩

/-- C4 witness: the spec's scenario input. -/
theorem claim_C4_test_sentinel_witness :
    ∃ out, Cur.handleChat
        { check := c2Env, owaspOk := true, followup := fun _ => .ok "from the model" }
        [{ role := "user", content := "#llm:test" }] = .ok out
      ∧ out.content = "Lorem ipsum dolor sit amet" := by
  obtain ⟨out, h1, h2, -⟩ := claim_C4_test_sentinel
      { check := c2Env, owaspOk := true, followup := fun _ => .ok "from the model" }
      [] { role := "user", content := "#llm:test" } (by decide)
  exact ⟨out, h1, h2⟩

/-- C4 counterexample input: the last *user* message's final line is exactly
the test sentinel, but the conversation ends with an assistant message. -/
def c4Msgs : List Cur.Msg :=
  [{ role := "user", content := "#llm:test" },
   { role := "assistant", content := "ok" }]

def c4Env : Cur.PipelineEnv :=
  { check := { opinion := .ok { content := "", tool_calls := [] }, transport := transportUp },
    owaspOk := true,
    followup := fun _ => .ok "Hi! How can I help you today?" }

/-- C4 counterexample: for `c4Msgs` the claim requires the canned string —
the last user message's final line matches the test sentinel and the request
is non-streaming — but `_checkMCP` looks at the last message regardless of
role, no test short-circuit fires, and the content is the LLM's answer. -/
theorem claim_C4_cex :
    (Cur.lastUserMsg c4Msgs).map (fun m => lastLine m.content) = some "#llm:test"
    ∧ ∃ out, Cur.handleChat c4Env c4Msgs = .ok out
        ∧ out.content = "Hi! How can I help you today?"
        ∧ out.content ≠ "Lorem ipsum dolor sit amet" := by
  refine ⟨by decide, ?_⟩
  refine ⟨{ content := "Hi! How can I help you today?",
            sentToFollowup := some c4Msgs,
            check := { messages := c4Msgs, toolsAttached := false, answerContent := "",
                       answerToolCalls := [], opinionCalled := false, rpcRequests := [] } },
         by decide, rfl, by decide⟩

/-- A successful `executeTools` batch yields one result per tool call, named
after the calls in their order, and its wire requests are the concatenation of
each call's requests in the same order (the sequential loop). -/
theorem executeTools_ok_shape (t : Cur.Transport) :
    ∀ (tcs : List Cur.ToolCall) (reqs : List Cur.RpcRequest)
      (rs : List Cur.GrafanaMcp.ToolResult),
      Cur.GrafanaMcp.executeTools t tcs = (reqs, .ok rs) →
      rs.map (fun r => r.name) = tcs.map (fun tc => tc.function.name)
      ∧ reqs = (tcs.map (fun tc => (Cur.GrafanaMcp.executeTool t tc).1)).flatten
  | [], reqs, rs, h => by
      simp only [Cur.GrafanaMcp.executeTools, Prod.mk.injEq] at h
      obtain ⟨hreq, hok⟩ := h
      cases hok
      simp [hreq.symm]
  | tc :: rest, reqs, rs, h => by
      rw [Cur.GrafanaMcp.executeTools] at h
      rcases he : Cur.GrafanaMcp.executeTool t tc with ⟨reqs1, r1⟩
      rw [he] at h
      cases r1 with
      | error e => simp at h
      | ok result =>
        dsimp only at h
        rcases hrest : Cur.GrafanaMcp.executeTools t rest with ⟨reqs2, r2⟩
        rw [hrest] at h
        cases r2 with
        | error e => simp at h
        | ok rs2 =>
          dsimp only at h
          simp only [Prod.mk.injEq, Except.ok.injEq] at h
          obtain ⟨hreq, hrs⟩ := h
          obtain ⟨ih1, ih2⟩ := executeTools_ok_shape t rest reqs2 rs2 hrest
          subst hreq
          subst hrs
          constructor
          · simp [ih1]
          · simp [ih2, he]

/-- The conversation `_checkMCP` leaves for the follow-up call after a
successful tool batch. -/
def mcpConversation (msgs : List Cur.Msg) (tcs : List Cur.ToolCall)
    (results : List Cur.GrafanaMcp.ToolResult) : List Cur.Msg :=
  msgs ++ [{ role := "assistant", content := "", tool_calls := tcs : Cur.Msg }]
    ++ results.map Cur.toolResultMsg
    ++ [{ role := "system", content := Cur.followupInstruction : Cur.Msg }]

/-- C5: a tool-assisted turn whose LLM opinion call returns `N` tool calls
dispatches them sequentially in their given order and appends exactly `N`
tool-role messages, in the same order as the originating tool calls, all
before the follow-up LLM call is issued (the follow-up call receives that
completed conversation). -/
theorem claim_C5_batch_order (env : Cur.PipelineEnv) (ms : List Cur.Msg) (m : Cur.Msg)
    (ans : Cur.Answer) (reqs : List Cur.RpcRequest)
    (results : List Cur.GrafanaMcp.ToolResult) (s : String)
    (hline : jsStartsWith (lastLine m.content) "#mcp:grafana" = true)
    (hop : env.check.opinion = .ok ans)
    (hnz : ans.tool_calls ≠ [])
    (hexec : Cur.GrafanaMcp.executeTools env.check.transport ans.tool_calls
      = (reqs, .ok results))
    (hfollow : env.followup (mcpConversation (ms ++ [m]) ans.tool_calls results) = .ok s) :
    (results.map Cur.toolResultMsg).length = ans.tool_calls.length
    ∧ (results.map Cur.toolResultMsg).map Cur.Msg.name
        = ans.tool_calls.map (fun tc => tc.function.name)
    ∧ (∀ mm ∈ results.map Cur.toolResultMsg, mm.role = "tool")
    ∧ (([{ role := "assistant", content := "", tool_calls := ans.tool_calls : Cur.Msg }]
          ++ results.map Cur.toolResultMsg
          ++ [{ role := "system", content := Cur.followupInstruction : Cur.Msg }]).filter
            (fun mm => mm.role == "tool")
        = results.map Cur.toolResultMsg
    ∧ reqs = (ans.tool_calls.map
        (fun tc => (Cur.GrafanaMcp.executeTool env.check.transport tc).1)).flatten
    ∧ ∃ out, Cur.handleChat env (ms ++ [m]) = .ok out
        ∧ out.check.messages = mcpConversation (ms ++ [m]) ans.tool_calls results
        ∧ out.sentToFollowup = some (mcpConversation (ms ++ [m]) ans.tool_calls results)
        ∧ out.content = s) := by
  obtain ⟨hnames, hreqs⟩ := executeTools_ok_shape env.check.transport ans.tool_calls reqs
      results hexec
  have hlen : results.length = ans.tool_calls.length := by
    have := congrArg List.length hnames
    simpa using this
  have hroles : ∀ mm ∈ results.map Cur.toolResultMsg, mm.role = "tool" := by
    intro mm hmm
    obtain ⟨r, _, hr⟩ := List.mem_map.mp hmm
    rw [← hr]
    rfl
  refine ⟨by simpa using hlen, ?_, hroles, ?_, hreqs, ?_⟩
  · rw [List.map_map]
    exact hnames
  · rw [List.filter_append, List.filter_append]
    have h1 : ([{ role := "assistant", content := "",
                  tool_calls := ans.tool_calls : Cur.Msg }].filter
        (fun mm => mm.role == "tool")) = [] := rfl
    have h3 : ([{ role := "system", content := Cur.followupInstruction : Cur.Msg }].filter
        (fun mm => mm.role == "tool")) = [] := rfl
    have h2 : ((results.map Cur.toolResultMsg).filter (fun mm => mm.role == "tool"))
        = results.map Cur.toolResultMsg := by
      apply List.filter_eq_self.mpr
      intro mm hmm
      simp [hroles mm hmm]
    rw [h1, h2, h3]
    simp
  · have hnt := Bridge.not_test_of_mcp hline
    have hcheck := checkMCP_last env.check (ms ++ [m]) m
        (if env.owaspOk then "" else "Invalid prompt") (List.getLast?_concat ms)
    rw [if_neg (show ¬(jsStartsWith (lastLine m.content) "#llm:test" = true) from by
          simp [hnt]),
        if_pos hline, hop] at hcheck
    dsimp only at hcheck
    rw [if_pos hnz, hexec] at hcheck
    dsimp only at hcheck
    rw [handleChat_ok env (ms ++ [m]) _ hcheck]
    unfold Cur.answerChat
    dsimp only
    unfold mcpConversation at hfollow
    rw [if_neg (show ¬(("" : String) ≠ "") from by simp), hfollow]
    exact ⟨_, rfl, rfl, rfl, rfl⟩

def c5Calls : List Cur.ToolCall :=
  [{ function := { name := "getGrafanaVersion", arguments := .obj [] } },
   { function := { name := "getDatasources", arguments := .obj [] } }]

def c5Env : Cur.PipelineEnv :=
  { check := { opinion := .ok { content := "", tool_calls := c5Calls },
               transport := transportUp },
    owaspOk := true,
    followup := fun _ => .ok "Here is what the tools returned." }

def c5Results : List Cur.GrafanaMcp.ToolResult :=
  [{ name := "getGrafanaVersion", content := "result",
     result := .obj [("version", .str "latest")] },
   { name := "getDatasources", content := "result",
     result := .obj [("jsonrpc", .str "2.0"), ("id", .str "1"), ("result", .arr [])] }]

def c5Msg : Cur.Msg := { role := "user", content := "#mcp:grafana list my datasources" }

/-- C5 witness: a concrete two-call batch. -/
theorem claim_C5_batch_order_witness :
    ∃ out, Cur.handleChat c5Env [c5Msg] = .ok out
      ∧ out.check.messages = mcpConversation [c5Msg] c5Calls c5Results
      ∧ out.sentToFollowup = some (mcpConversation [c5Msg] c5Calls c5Results)
      ∧ out.content = "Here is what the tools returned." := by
  obtain ⟨-, -, -, -, -, hmain⟩ := claim_C5_batch_order c5Env [] c5Msg
      { content := "", tool_calls := c5Calls }
      [{ jsonrpc := "2.0", id := "1", method := "tools/call",
         params := .obj [("name", .str "list_datasources"), ("arguments", .obj [])] }]
      c5Results "Here is what the tools returned."
      (by decide) rfl (by decide) (by decide) rfl
  exact hmain

/-- A transport every reply of which arrives and parses as JSON. -/
def GoodTransport (t : Cur.Transport) : Prop :=
  ∀ r, ∃ reply, t r = some reply ∧ (reply.json).isSome = true

/-- Under a good transport, `methodCall` never throws. -/
theorem methodCall_ok_of_good {t : Cur.Transport} (hg : GoodTransport t)
    (method : String) (params : JsonVal) :
    ∃ v, (Cur.McpHelper.methodCall t method params).2 = .ok v := by
  obtain ⟨reply, hr, hj⟩ := hg { jsonrpc := "2.0", id := "1", method := method, params := params }
  obtain ⟨j, hjs⟩ := Option.isSome_iff_exists.mp hj
  unfold Cur.McpHelper.methodCall
  dsimp only
  rw [hr]
  dsimp only
  rw [hjs]
  dsimp only
  by_cases h1 : (!reply.ok || reply.status == 401) = true
  · rw [if_pos h1]
    exact ⟨_, rfl⟩
  · rw [if_neg h1]
    by_cases h2 : jsTruthyOpt (getField j "error") = true
    · rw [if_pos h2]
      exact ⟨_, rfl⟩
    · rw [if_neg h2]
      exact ⟨_, rfl⟩

/-- Under a good transport, every single tool dispatch yields a value. -/
theorem executeTool_ok_of_good {t : Cur.Transport} (hg : GoodTransport t)
    (tc : Cur.ToolCall) :
    ∃ v, (Cur.GrafanaMcp.executeTool t tc).2 = .ok v := by
  unfold Cur.GrafanaMcp.executeTool Cur.McpHelper.executeTool
  unfold Cur.GrafanaMcp.getDashboards Cur.GrafanaMcp.getMetricsNames Cur.GrafanaMcp.getMetrics
    Cur.GrafanaMcp.getDatasources Cur.GrafanaMcp.getDashboard Cur.GrafanaMcp.getMetric
    Cur.GrafanaMcp.getGrafanaVersion Cur.McpHelper.getToolsList Cur.McpHelper.toolCall
  repeat' split
  all_goals first
    | exact methodCall_ok_of_good hg _ _
    | exact ⟨_, rfl⟩

/-- Under a good transport, the whole batch yields a value. -/
theorem executeTools_ok_of_good {t : Cur.Transport} (hg : GoodTransport t) :
    ∀ tcs : List Cur.ToolCall, ∃ rs, (Cur.GrafanaMcp.executeTools t tcs).2 = .ok rs
  | [] => ⟨[], rfl⟩
  | tc :: rest => by
      obtain ⟨v, hv⟩ := executeTool_ok_of_good hg tc
      obtain ⟨rs, hrs⟩ := executeTools_ok_of_good hg rest
      rw [Cur.GrafanaMcp.executeTools]
      rcases he : Cur.GrafanaMcp.executeTool t tc with ⟨reqs1, r1⟩
      rw [he] at hv
      cases r1 with
      | error e => cases hv
      | ok result =>
        dsimp only
        rcases hr : Cur.GrafanaMcp.executeTools t rest with ⟨reqs2, r2⟩
        rw [hr] at hrs
        cases r2 with
        | error e => cases hrs
        | ok rs2 => exact ⟨_, rfl⟩

/-- C6 (amended): every outbound tool-server request is a JSON-RPC envelope
with `jsonrpc: "2.0"` and the fixed id `"1"`, carrying method and params
verbatim.  A non-2xx (or 401) HTTP status *whose reply body parses as JSON*,
and a `result.error` field in the reply, both translate into a returned
`{error: ...}` value rather than a thrown error, and under a transport whose
replies always arrive and parse as JSON the whole batch and `_checkMCP` run
complete without a thrown error reaching the HTTP layer.  (A reply whose body
does not parse as JSON, or a rejected fetch, does throw — see the
counterexample.) -/
theorem claim_C6_rpc_envelope_errors :
    (∀ (t : Cur.Transport) (method : String) (params : JsonVal),
        (Cur.McpHelper.methodCall t method params).1
          = [{ jsonrpc := "2.0", id := "1", method := method, params := params }])
    ∧ (∀ (t : Cur.Transport) (method : String) (params : JsonVal) reply j,
        t { jsonrpc := "2.0", id := "1", method := method, params := params } = some reply →
        reply.json = some j → (!reply.ok || reply.status == 401) = true →
        (Cur.McpHelper.methodCall t method params).2
          = .ok (.obj [("error", .str ("MCP Server connection error: "
              ++ toString reply.status ++ " - " ++ reply.statusText))]))
    ∧ (∀ (t : Cur.Transport) (method : String) (params : JsonVal) reply j ev,
        t { jsonrpc := "2.0", id := "1", method := method, params := params } = some reply →
        reply.json = some j → (!reply.ok || reply.status == 401) = false →
        getField j "error" = some ev → jsTruthy ev = true →
        (Cur.McpHelper.methodCall t method params).2
          = .ok (.obj [("error", (getField ev "message").getD .null)]))
    ∧ (∀ (t : Cur.Transport), GoodTransport t →
        (∀ tcs : List Cur.ToolCall, ∃ rs, (Cur.GrafanaMcp.executeTools t tcs).2 = .ok rs)
        ∧ ∀ (ans : Cur.Answer) (msgs : List Cur.Msg) (pre : String),
            ∃ out, Cur.checkMCP { opinion := .ok ans, transport := t } msgs pre = .ok out) := by
  refine ⟨?_, ?_, ?_, ?_⟩
  · intro t method params
    unfold Cur.McpHelper.methodCall
    dsimp only
    repeat' split
    all_goals rfl
  · intro t method params reply j hr hj hbad
    unfold Cur.McpHelper.methodCall
    dsimp only
    rw [hr]
    dsimp only
    rw [hj]
    dsimp only
    rw [if_pos hbad]
  · intro t method params reply j ev hr hj hgood herr htr
    unfold Cur.McpHelper.methodCall
    dsimp only
    rw [hr]
    dsimp only
    rw [hj]
    dsimp only
    rw [if_neg (show ¬((!reply.ok || reply.status == 401) = true) from by simp [hgood]),
        if_pos (show jsTruthyOpt (getField j "error") = true from by
          simp [jsTruthyOpt, herr, htr])]
    simp [herr]
  · intro t hg
    refine ⟨executeTools_ok_of_good hg, ?_⟩
    intro ans msgs pre
    rcases hl : msgs.getLast? with _ | m
    · unfold Cur.checkMCP
      rw [hl]
      exact ⟨_, rfl⟩
    · rw [checkMCP_last { opinion := .ok ans, transport := t } msgs m pre hl]
      try dsimp only
      by_cases h1 : jsStartsWith (lastLine m.content) "#llm:test" = true
      · rw [if_pos h1]; exact ⟨_, rfl⟩
      · rw [if_neg h1]
        by_cases h2 : jsStartsWith (lastLine m.content) "#mcp:grafana" = true
        · rw [if_pos h2]
          try dsimp only
          by_cases hnz : ans.tool_calls ≠ []
          · rw [if_pos hnz]
            obtain ⟨rs, hrs⟩ := executeTools_ok_of_good hg ans.tool_calls
            rcases hex : Cur.GrafanaMcp.executeTools t ans.tool_calls with ⟨reqs, r⟩
            rw [hex] at hrs
            cases r with
            | error e => cases hrs
            | ok results => exact ⟨_, rfl⟩
          · rw [if_neg hnz]; exact ⟨_, rfl⟩
        · rw [if_neg h2]; exact ⟨_, rfl⟩

/-- C6 witness: concrete transports exercising the reply shapes. -/
theorem claim_C6_rpc_envelope_errors_witness :
    (Cur.McpHelper.methodCall transportUp "tools/list" (.obj [])).1
      = [{ jsonrpc := "2.0", id := "1", method := "tools/list", params := .obj [] }]
    ∧ (Cur.McpHelper.methodCall
        (fun _ => some { ok := false, status := 401, statusText := "Unauthorized",
                         json := some (.obj []) })
        "tools/list" (.obj [])).2
      = .ok (.obj [("error", .str "MCP Server connection error: 401 - Unauthorized")])
    ∧ (Cur.McpHelper.methodCall
        (fun _ => some { ok := true, status := 200, statusText := "OK",
                         json := some (.obj [("error",
                           .obj [("message", .str "unknown method")])]) })
        "tools/list" (.obj [])).2
      = .ok (.obj [("error", .str "unknown method")])
    ∧ (∃ rs, (Cur.GrafanaMcp.executeTools transportUp
        [{ function := { name := "getDashboards", arguments := .obj [] } }]).2 = .ok rs) := by
  refine ⟨claim_C6_rpc_envelope_errors.1 transportUp "tools/list" (.obj []), ?_, ?_, ?_⟩
  · exact (claim_C6_rpc_envelope_errors.2.1 _ "tools/list" (.obj [])
      { ok := false, status := 401, statusText := "Unauthorized", json := some (.obj []) }
      (.obj []) rfl rfl (by decide)).trans (by decide)
  · exact (claim_C6_rpc_envelope_errors.2.2.1 _ "tools/list" (.obj [])
      { ok := true, status := 200, statusText := "OK",
        json := some (.obj [("error", .obj [("message", .str "unknown method")])]) }
      (.obj [("error", .obj [("message", .str "unknown method")])])
      (.obj [("message", .str "unknown method")])
      rfl rfl (by decide) (by decide) (by decide)).trans (by decide)
  · exact (claim_C6_rpc_envelope_errors.2.2.2 transportUp
      (fun _ => ⟨replyOkEmpty, rfl, rfl⟩)).1
      [{ function := { name := "getDashboards", arguments := .obj [] } }]

/-- C6 counterexample: a non-2xx reply whose body is not valid JSON.
`methodCall` awaits `response.json()` *before* checking `response.ok`, so the
JSON parse failure is thrown (and a rejected fetch throws too): it propagates
through `executeTools` and `_checkMCP` out to the HTTP layer instead of
becoming a tool-call failure value, refuting "a non-2xx HTTP status ... never
a thrown or propagated transport error". -/
theorem claim_C6_cex :
    (Cur.McpHelper.methodCall transportDown "tools/call"
        (.obj [("name", .str "list_datasources"), ("arguments", .obj [])])).2
      = .error "reply body is not valid JSON"
    ∧ (Cur.GrafanaMcp.executeTools transportDown
        [{ function := { name := "getDatasources", arguments := .obj [] } }]).2
      = .error "reply body is not valid JSON"
    ∧ Cur.checkMCP
        { opinion := .ok { content := "",
                           tool_calls := [{ function := { name := "getDatasources",
                                                          arguments := .obj [] } }] },
          transport := transportDown }
        [{ role := "user", content := "#mcp:grafana list datasources" }] ""
      = .error "reply body is not valid JSON" := by
  refine ⟨rfl, rfl, by decide⟩

/-- C9 (amended): a tool call whose name is not in the registry does not fail
fast and still yields a ToolResult — but the fallback makes *no* call to the
external tool server: `McpHelper.executeTool` returns the tool call's own
`function` object (name and arguments) as the result payload. -/
theorem claim_C9_unknown_tool (t : Cur.Transport) (tc : Cur.ToolCall)
    (h : tc.function.name ∉ Cur.GrafanaMcp.toolNames) :
    Cur.GrafanaMcp.executeTool t tc = ([], .ok (Cur.toolFunctionJson tc.function))
    ∧ Cur.GrafanaMcp.executeTools t [tc]
      = ([], .ok [{ name := tc.function.name, content := "result",
                    result := Cur.toolFunctionJson tc.function }]) := by
  simp only [Cur.GrafanaMcp.toolNames, List.mem_cons, List.not_mem_nil, or_false,
    not_or] at h
  obtain ⟨h1, h2, h3, h4, h5, h6, h7, h8⟩ := h
  have he : Cur.GrafanaMcp.executeTool t tc = ([], .ok (Cur.toolFunctionJson tc.function)) := by
    unfold Cur.GrafanaMcp.executeTool Cur.McpHelper.executeTool
    rw [if_neg h3, if_neg h4, if_neg h5, if_neg h6, if_neg h7, if_neg h8, if_neg h2, if_neg h1]
  refine ⟨he, ?_⟩
  rw [Cur.GrafanaMcp.executeTools, he]
  dsimp only
  rw [Cur.GrafanaMcp.executeTools]
  simp only [jsTruthyOpt, Cur.toolFunctionJson, getField]
  rfl

/-- C9 witness: an unregistered tool name. -/
theorem claim_C9_unknown_tool_witness :
    Cur.GrafanaMcp.executeTool transportUp
        { function := { name := "fooBarTool", arguments := .obj [("x", .num 1)] } }
      = ([], .ok (.obj [("name", .str "fooBarTool"), ("arguments", .obj [("x", .num 1)])]))
    ∧ ("fooBarTool" ∉ Cur.GrafanaMcp.toolNames) := by
  refine ⟨?_, by decide⟩
  exact (claim_C9_unknown_tool transportUp
      { function := { name := "fooBarTool", arguments := .obj [("x", .num 1)] } }
      (by decide)).1

/-- C9 counterexample: for the unknown name `"fooBarTool"`, dispatch issues
*no* request to the external tool server (the request trace is empty), while
the claim requires a generic pass-through call against the server; the result
is merely the echoed `function` object. -/
theorem claim_C9_cex :
    ("fooBarTool" ∉ Cur.GrafanaMcp.toolNames)
    ∧ (Cur.GrafanaMcp.executeTool transportUp
        { function := { name := "fooBarTool", arguments := .obj [] } }).1 = []
    ∧ (Cur.GrafanaMcp.executeTool transportUp
        { function := { name := "fooBarTool", arguments := .obj [] } }).2
      = .ok (.obj [("name", .str "fooBarTool"), ("arguments", .obj [])]) := by
  exact ⟨by decide, rfl, rfl⟩

/-- Unfolding `processPrompt` when the MCP section succeeded. -/
theorem processPrompt_of_mcpSection (env : Legacy.Env) (prompt : String) (stream : Bool)
    (calls : List Legacy.CallEv) (askLLM : Bool) (finalResponse : String)
    (hmode : env.mode ≠ "TEST")
    (hsec : Legacy.mcpSection env prompt = (calls, .ok (askLLM, finalResponse))) :
    Legacy.processPrompt env prompt stream =
      (if stream then
        if askLLM then
          { calls := calls ++ [Legacy.CallEv.llm "stream"],
            events := Legacy.streamLLMEvents env
              ++ [Legacy.SSE.finish, Legacy.SSE.done, Legacy.SSE.close],
            response := none, threw := none }
        else
          { calls := calls,
            events := [Legacy.SSE.chunk finalResponse,
                       Legacy.SSE.finish, Legacy.SSE.done, Legacy.SSE.close],
            response := none, threw := none }
      else
        if askLLM then
          match env.finalAnswer with
          | .error e => { calls := calls ++ [Legacy.CallEv.llm "final"], events := [],
                          response := none, threw := some e }
          | .ok s => { calls := calls ++ [Legacy.CallEv.llm "final"], events := [],
                       response := some s, threw := none }
        else
          { calls := calls, events := [], response := some finalResponse, threw := none }) := by
  unfold Legacy.processPrompt
  rw [if_neg hmode, hsec]

/-- The MCP section on a prompt ending with the tools sentinel: no LLM call,
one `tools/list` RPC with empty params. -/
theorem mcpSection_tools (env : Legacy.Env) (prompt : String) (resp : JsonVal)
    (hends : jsEndsWith prompt "#mcp:grafana:tools" = true)
    (hmcp : env.mcp = .ok resp) :
    Legacy.mcpSection env prompt
      = ([Legacy.CallEv.mcp (.str "tools/list") (.obj [])],
         .ok (false, ((getField resp "result").map stringify).getD "undefined")) := by
  have hinc : jsIncludes prompt "#mcp:grafana" = true :=
    jsIncludes_of_jsEndsWith hends (by decide)
  unfold Legacy.mcpSection
  rw [if_pos hinc]
  dsimp only
  rw [if_pos hends]
  dsimp only
  rw [if_pos (show getField (JsonVal.obj [("action", JsonVal.str "mcp"),
        ("method", JsonVal.str "tools/list")]) "action" = some (JsonVal.str "mcp")
      ∧ jsTruthyOpt (getField (JsonVal.obj [("action", JsonVal.str "mcp"),
        ("method", JsonVal.str "tools/list")]) "method") = true from by decide)]
  rw [hmcp]
  dsimp only
  rw [if_pos hends]
  rfl

/-- The MCP section when the analysis reply is not valid JSON: the fallback
object's action is `"respond"`, so no MCP call is made and the direct-answer
path (`askLLM = true`) is taken. -/
theorem mcpSection_badjson (env : Legacy.Env) (prompt : String) (r : Legacy.AnalysisReply)
    (hinc : jsIncludes prompt "#mcp:grafana" = true)
    (hends : jsEndsWith prompt "#mcp:grafana:tools" = false)
    (hana : env.analysis = .ok r)
    (hbad : r.parsed = none) :
    Legacy.mcpSection env prompt = ([Legacy.CallEv.llm "analysis"], .ok (true, "")) := by
  unfold Legacy.mcpSection
  rw [if_pos hinc]
  dsimp only
  rw [if_neg (show ¬(jsEndsWith prompt "#mcp:grafana:tools" = true) from by simp [hends]),
      hana]
  dsimp only
  rw [hbad]
  dsimp only
  rw [if_neg (show ¬(getField (JsonVal.obj [("action", JsonVal.str "respond"),
        ("text", JsonVal.str prompt)]) "action" = some (JsonVal.str "mcp")
      ∧ jsTruthyOpt (getField (JsonVal.obj [("action", JsonVal.str "respond"),
        ("text", JsonVal.str prompt)]) "method") = true) from by
    rintro ⟨h1, -⟩
    rw [show getField (JsonVal.obj [("action", JsonVal.str "respond"),
        ("text", JsonVal.str prompt)]) "action" = some (JsonVal.str "respond") from rfl] at h1
    simp at h1)]

/-- C7 (amended): when the LLM's analysis reply is not valid JSON, the failure
is recovered locally — no error outcome — and the orchestrator falls back to
the *direct-answer path*: it issues a fresh LLM call with the original prompt
and returns that call's reply as a normal completion (the raw analysis text
itself is discarded, not used as the answer). -/
theorem claim_C7_analysis_fallback (env : Legacy.Env) (prompt : String)
    (r : Legacy.AnalysisReply) (s : String)
    (hmode : env.mode ≠ "TEST")
    (hinc : jsIncludes prompt "#mcp:grafana" = true)
    (hends : jsEndsWith prompt "#mcp:grafana:tools" = false)
    (hana : env.analysis = .ok r)
    (hbad : r.parsed = none)
    (hfin : env.finalAnswer = .ok s) :
    Legacy.processPrompt env prompt false
      = { calls := [Legacy.CallEv.llm "analysis", Legacy.CallEv.llm "final"], events := [],
          response := some s, threw := none } := by
  rw [processPrompt_of_mcpSection env prompt false [Legacy.CallEv.llm "analysis"] true ""
      hmode (mcpSection_badjson env prompt r hinc hends hana hbad)]
  rw [if_neg (show ¬(false = true) from by simp), if_pos (show true = true from rfl), hfin]
  rfl

def c7Env : Legacy.Env :=
  { mode := "LLM",
    analysis := .ok { raw := "this is not JSON", parsed := none },
    mcp := .ok .null,
    summarize := .ok "unused",
    finalAnswer := .ok "hello from the model",
    streamParts := [], streamErr := false }

/-- C7 counterexample: the analysis reply `"this is not JSON"` fails to parse;
the request recovers and completes normally, but the completion content is a
fresh direct LLM answer (`"hello from the model"`), *not* the raw analysis
text — refuting "falls back to treating the raw LLM text as a direct
answer". -/
theorem claim_C7_cex :
    Legacy.processPrompt c7Env "#mcp:grafana what is up" false
      = { calls := [Legacy.CallEv.llm "analysis", Legacy.CallEv.llm "final"], events := [],
          response := some "hello from the model", threw := none }
    ∧ (Legacy.processPrompt c7Env "#mcp:grafana what is up" false).response
        ≠ some "this is not JSON" := by
  exact ⟨by decide, by decide⟩

/-- C7 witness: the amended theorem at the counterexample's environment. -/
theorem claim_C7_analysis_fallback_witness :
    Legacy.processPrompt c7Env "#mcp:grafana summarize the CPU metrics" false
      = { calls := [Legacy.CallEv.llm "analysis", Legacy.CallEv.llm "final"], events := [],
          response := some "hello from the model", threw := none } :=
  claim_C7_analysis_fallback c7Env "#mcp:grafana summarize the CPU metrics"
    { raw := "this is not JSON", parsed := none } "hello from the model"
    (by decide) (by decide) (by decide) rfl rfl rfl

/-- C8: for every request whose prompt ends with `"#mcp:grafana:tools"` (in
LLM mode, with the tool server answering with a `result` field), exactly one
`tools/list` MCP call is issued, no LLM call at all is made, and the final
response content is the JSON serialization of the RPC reply's `result`
field — in both the non-streaming and the streaming pipeline. -/
theorem claim_C8_tools_endpoint (env : Legacy.Env) (prompt : String) (resp r : JsonVal)
    (hmode : env.mode ≠ "TEST")
    (hends : jsEndsWith prompt "#mcp:grafana:tools" = true)
    (hmcp : env.mcp = .ok resp)
    (hres : getField resp "result" = some r) :
    Legacy.processPrompt env prompt false
      = { calls := [Legacy.CallEv.mcp (.str "tools/list") (.obj [])], events := [],
          response := some (stringify r), threw := none }
    ∧ Legacy.processPrompt env prompt true
      = { calls := [Legacy.CallEv.mcp (.str "tools/list") (.obj [])],
          events := [Legacy.SSE.chunk (stringify r),
                     Legacy.SSE.finish, Legacy.SSE.done, Legacy.SSE.close],
          response := none, threw := none } := by
  have hsec := mcpSection_tools env prompt resp hends hmcp
  rw [hres] at hsec
  constructor
  · rw [processPrompt_of_mcpSection env prompt false
        [Legacy.CallEv.mcp (.str "tools/list") (.obj [])] false (stringify r) hmode hsec]
    rw [if_neg (show ¬(false = true) from by simp),
        if_neg (show ¬(false = true) from by simp)]
  · rw [processPrompt_of_mcpSection env prompt true
        [Legacy.CallEv.mcp (.str "tools/list") (.obj [])] false (stringify r) hmode hsec]
    rw [if_pos (show true = true from rfl),
        if_neg (show ¬(false = true) from by simp)]

def c8Env : Legacy.Env :=
  { mode := "LLM",
    analysis := .ok { raw := "unused", parsed := none },
    mcp := .ok (.obj [("jsonrpc", .str "2.0"), ("id", .str "1"),
                      ("result", .obj [("tools", .arr [.str "search_dashboards"])])]),
    summarize := .ok "unused",
    finalAnswer := .ok "unused",
    streamParts := [], streamErr := false }

/-- C8 witness: a concrete tools-list request. -/
theorem claim_C8_tools_endpoint_witness :
    Legacy.processPrompt c8Env "user: #mcp:grafana:tools" false
      = { calls := [Legacy.CallEv.mcp (.str "tools/list") (.obj [])], events := [],
          response := some (stringify (.obj [("tools", .arr [.str "search_dashboards"])])),
          threw := none } :=
  (claim_C8_tools_endpoint c8Env "user: #mcp:grafana:tools"
    (.obj [("jsonrpc", .str "2.0"), ("id", .str "1"),
           ("result", .obj [("tools", .arr [.str "search_dashboards"])])])
    (.obj [("tools", .arr [.str "search_dashboards"])])
    (by decide) (by decide) rfl rfl).1

def c1TestEnv : Legacy.Env :=
  { mode := "TEST",
    analysis := .ok { raw := "", parsed := none },
    mcp := .ok .null, summarize := .ok "", finalAnswer := .ok "",
    streamParts := [], streamErr := false }

/-- C1 counterexample: a streaming request in TEST mode.  `setupStream` has
already written the role chunk (the stream has started), but `processPrompt`
returns the canned non-streaming response object early, `handleChat` skips
`res.json` because `stream` is true, and the connection is left open: the
emitted event sequence is just the role frame — no finish chunk, no
`data: [DONE]` terminator — refuting "the stream is never left
unterminated". -/
theorem claim_C1_cex :
    Legacy.handleChatStream c1TestEnv "Hello" = [Legacy.SSE.role]
    ∧ Legacy.SSE.finish ∉ Legacy.handleChatStream c1TestEnv "Hello"
    ∧ Legacy.SSE.done ∉ Legacy.handleChatStream c1TestEnv "Hello" := by
  exact ⟨by decide, by decide, by decide⟩

/-- C1 (amended): for a streaming request in LLM mode, whenever the
pre-stream section completes without a thrown error (the MCP-path LLM and
RPC calls that the prompt requires all succeed), the emitted SSE sequence is
the role frame, zero or more content frames, and then exactly the finish
chunk, the `data: [DONE]` terminator and the connection close — in the
direct-stream path (including its internally recovered stream errors) and in
the MCP path alike.  (A TEST-mode streaming request, or a thrown error in the
MCP section, leaves the stream without the finish/DONE terminator — see the
counterexample.) -/
theorem claim_C1_stream_termination (env : Legacy.Env) (prompt : String)
    (askLLM : Bool) (finalResponse : String)
    (hmode : env.mode ≠ "TEST")
    (hsec : (Legacy.mcpSection env prompt).2 = .ok (askLLM, finalResponse)) :
    ∃ body : List Legacy.SSE,
      Legacy.handleChatStream env prompt
        = Legacy.SSE.role :: (body ++ [Legacy.SSE.finish, Legacy.SSE.done, Legacy.SSE.close])
      ∧ ∀ e ∈ body, ∃ s, e = Legacy.SSE.chunk s := by
  rcases hs : Legacy.mcpSection env prompt with ⟨calls, rr⟩
  rw [hs] at hsec
  dsimp only at hsec
  subst hsec
  unfold Legacy.handleChatStream
  rw [processPrompt_of_mcpSection env prompt true calls askLLM finalResponse hmode hs]
  cases askLLM with
  | false =>
    refine ⟨[Legacy.SSE.chunk finalResponse], by simp, ?_⟩
    intro e he
    rw [List.mem_singleton] at he
    exact ⟨finalResponse, he⟩
  | true =>
    refine ⟨Legacy.streamLLMEvents env, by simp, ?_⟩
    intro e he
    unfold Legacy.streamLLMEvents at he
    rcases List.mem_append.mp he with h | h
    · obtain ⟨s, -, hs'⟩ := List.mem_map.mp h
      exact ⟨s, hs'.symm⟩
    · by_cases hb : env.streamErr
      · rw [if_pos hb, List.mem_singleton] at h
        exact ⟨"Error in streaming", h⟩
      · rw [if_neg hb] at h
        cases h

def c1StreamEnv : Legacy.Env :=
  { mode := "LLM",
    analysis := .ok { raw := "", parsed := none },
    mcp := .ok .null, summarize := .ok "", finalAnswer := .ok "",
    streamParts := ["Hi", " there"], streamErr := false }

/-- C1 witness: a plain streaming chat with two backend chunks. -/
theorem claim_C1_stream_termination_witness :
    ∃ body : List Legacy.SSE,
      Legacy.handleChatStream c1StreamEnv "user: Hello"
        = Legacy.SSE.role :: (body ++ [Legacy.SSE.finish, Legacy.SSE.done, Legacy.SSE.close])
      ∧ ∀ e ∈ body, ∃ s, e = Legacy.SSE.chunk s :=
  claim_C1_stream_termination c1StreamEnv "user: Hello" true "" (by decide) (by decide)

/-- C10 witness: concrete backend responses. -/
theorem claim_C10_callLLM_total_witness :
    Legacy.callLLM (.obj [("message", .obj [("role", .str "assistant"),
                                            ("content", .str "Hi there")])])
      = .str "Hi there"
    ∧ Legacy.callLLM (.obj [("message", .obj [("role", .str "assistant"),
                                              ("content", .str "")]), ("done", .bool true)])
      = .str (stringify (.obj [("message", .obj [("role", .str "assistant"),
                                                 ("content", .str "")]),
                               ("done", .bool true)]))
    ∧ Legacy.callLLM (.obj [("done", .bool true)])
      = .str (stringify (.obj [("done", .bool true)]))
    ∧ Legacy.callLLM (.obj []) ≠ JsonVal.null := by
  refine ⟨?_, ?_, ?_, ?_⟩
  · exact (claim_C10_callLLM_total _).2.1 _ "Hi there" rfl rfl (by decide)
  · exact (claim_C10_callLLM_total _).2.2.2 _ rfl rfl
  · exact (claim_C10_callLLM_total _).2.2.1 rfl
  · exact (claim_C10_callLLM_total _).1
